import Mathlib

/-!
# cache_guard: a shallow embedding of `cache_guard.cpp`

The program shares one cache (`global_cache`) between a worker thread and a
reaper thread.  `worker()` swaps the cache out of the global slot, works on it
and swaps it back unless the unit of work throws; `clear_cache_worker()`
periodically tries the mutex without blocking and resets a cache that has not
been used for more than `maximum_unused_time`.

The embedding has three layers.

* `randomize_value` / `randomize_time`: the rejection loop over the outputs of
  `std::rand()`, which are supplied as a list (an exhausted list means the loop
  is still running).
* `worker`, `worker_loop_iteration`, `worker_loop`, `clear_cache_tick`,
  `clear_cache_worker`: each function body as a state-passing function.  Clock
  readings, `try_to_lock` results and stop-flag readings are inputs.
* `Sys` / `step` / `run`: the two threads and `main` interleaved statement by
  statement, with the mutex as explicit state.

Platform constants that the source takes from its headers are parameters:
`RAND_MAX` (an `int` constant of `<cstdlib>`) and `ticks_per_ms`, the number of
ticks of `std::chrono::high_resolution_clock` in one millisecond.
-/

namespace cache_guard

/-! ## Data model (lines 18-40) -/

/-- The class `entry`: one `int` field. -/
structure entry where
  x : Int
deriving DecidableEq, Repr

/-- The alias `cache = std::vector<entry>`. -/
abbrev cache := List entry

/-- The alias `cache_ptr = std::shared_ptr<cache>`: null or the owned cache.  The
program only swaps and resets these pointers, so no two of them share a
cache. -/
abbrev cache_ptr := Option cache

/-- The expression `new cache(n)`: `n` value-initialised entries. -/
def new_cache (n : Nat) : cache := List.replicate n (entry.mk 0)

/-- The member `a.swap(b)`: returns the new values of `a` and of `b`. -/
def swap (a b : cache_ptr) : cache_ptr × cache_ptr := (b, a)

/-- The constant `maximum_time_worker = 200ms`, in milliseconds. -/
def maximum_time_worker : Int := 200

/-- The constant `maximum_idle_time = 100ms`, in milliseconds. -/
def maximum_idle_time : Int := 100

/-- The constant `maximum_unused_time = 30ms`, in milliseconds. -/
def maximum_unused_time : Int := 30

/-- The constant `clear_cache_interval = 60ms`, in milliseconds. -/
def clear_cache_interval : Int := 60

/-- Largest value of a 32-bit `int`; `RAND_MAX` is an `int` constant. -/
def INT_MAX : Nat := 2147483647

/-- The globals `global_cache` and `global_cache_last_access` (a time point, in
clock ticks since the epoch of the clock). -/
structure State where
  global_cache : cache_ptr
  global_cache_last_access : Int
deriving DecidableEq, Repr

/-- The lines written to `std::wcout`. -/
inductive message where
  | grabbing
  | created
  | waiting_in_worker (ms : Int)
  | putting_back
  | waiting_in_worker_loop (ms : Int)
  | caught (what : String)
  | resetting (ms : Int)
deriving DecidableEq, Repr

/-- What a thread does that another thread or an observer can see. -/
inductive event where
  | lock
  | try_lock (owns_lock : Bool)
  | unlock
  | sleep_for (ms : Int)
  | wcout (m : message)
deriving DecidableEq, Repr

/-- The exceptions of the model: `std::runtime_error`, which `worker_loop`
catches, and any exception that is not a `std::runtime_error`. -/
inductive exception where
  | runtime_error (what : String)
  | not_runtime_error (what : String)
deriving DecidableEq, Repr

/-- How a call ends: it returns, or an exception leaves it. -/
inductive outcome where
  | returned
  | threw (e : exception)
deriving DecidableEq, Repr

/-! ## randomize_value and randomize_time (lines 42-56) -/

/-- The divisor `(RAND_MAX + 1u) / upper_limit` of line 47: the sum is computed
in 32-bit unsigned arithmetic, the quotient in signed 64-bit arithmetic
(truncating). -/
def divisor (RAND_MAX : Nat) (upper_limit : Int) : Int :=
  Int.tdiv (((RAND_MAX + 1) % 2 ^ 32 : Nat) : Int) upper_limit

/-- The right-hand side of line 47 for one output `r` of `std::rand()`. -/
def candidate (RAND_MAX : Nat) (upper_limit : Int) (r : Int) : Int :=
  1 + Int.tdiv r (divisor RAND_MAX upper_limit)

/-- The loop of lines 46-47, entered with the current `x`.  `rands` are the
coming outputs of `std::rand()`.  The result is the final `x` and the unused
outputs; `none` when the outputs run out while the loop is still running, or
when the division of line 47 is a division by zero. -/
def randomize_value_loop (RAND_MAX : Nat) (upper_limit : Int) : Int → List Int → Option (Int × List Int)
  | x, [] => if x > upper_limit then none else some (x, [])
  | x, r :: rest =>
    if x > upper_limit then
      if divisor RAND_MAX upper_limit = 0 then none
      else randomize_value_loop RAND_MAX upper_limit (candidate RAND_MAX upper_limit r) rest
    else some (x, r :: rest)

/-- The function `randomize_value` (lines 42-50). -/
def randomize_value (RAND_MAX : Nat) (upper_limit : Int) (rands : List Int) : Option (Int × List Int) :=
  randomize_value_loop RAND_MAX upper_limit (upper_limit + 1) rands

/-- The template `randomize_time` (lines 52-56) at `std::chrono::milliseconds`:
`upper_limit` and the result are millisecond counts. -/
def randomize_time (RAND_MAX : Nat) (upper_limit : Int) (rands : List Int) : Option (Int × List Int) :=
  randomize_value RAND_MAX upper_limit rands

/-- The test `randomize_value(1000) % 17 == 0` of line 92 on the drawn value. -/
def failure_draw (v : Int) : Bool := Int.tmod v 17 == 0

/-! ## worker (lines 58-102) -/

/-- The text of the exception thrown at line 94. -/
def worker_error : exception := exception.runtime_error "A randomized exception has occurred."

/-- The function `worker`, run from the moment its `lock_guard` owns the mutex.
`s` is the slot at that moment, `rands` the coming outputs of `std::rand()` and
`now` what the clock returns if line 101 is reached.  The result is how the call
ends, the slot when it ends, the unused outputs and the events in order. -/
def worker (RAND_MAX : Nat) (s : State) (rands : List Int) (now : Int) :
    Option (outcome × State × List Int × List event) :=
  -- lines 73-74: cache_ptr scoped_cache; scoped_cache.swap(global_cache);
  let sw := swap none s.global_cache
  let scoped_cache := sw.1
  let s1 : State := { s with global_cache := sw.2 }
  -- lines 76-84
  let m := if scoped_cache.isSome then message.grabbing else message.created
  let scoped_cache := if scoped_cache.isSome then scoped_cache else some (new_cache 1000)
  -- line 86
  match randomize_time RAND_MAX maximum_idle_time rands with
  | none => none
  | some (wait_time, rands1) =>
    let ev := [event.lock, event.wcout m, event.wcout (message.waiting_in_worker wait_time),
      event.sleep_for wait_time]
    -- line 92
    match randomize_value RAND_MAX 1000 rands1 with
    | none => none
    | some (v, rands2) =>
      if failure_draw v then
        -- line 94: scoped_cache and guard are destroyed, the exception leaves
        some (outcome.threw worker_error, s1, rands2, ev ++ [event.unlock])
      else
        -- lines 98-101
        let sw2 := swap s1.global_cache scoped_cache
        some (outcome.returned,
          { global_cache := sw2.1, global_cache_last_access := now }, rands2,
          ev ++ [event.wcout message.putting_back, event.unlock])

/-! ## worker_loop (lines 104-123) -/

/-- The handler of lines 114-121 applied to how the `try` block ended: a
`std::runtime_error` is reported and the iteration ends normally, any other
exception leaves the loop. -/
def catch_runtime_error : outcome → outcome × List event
  | outcome.returned => (outcome.returned, [])
  | outcome.threw (exception.runtime_error what) =>
    (outcome.returned, [event.wcout (message.caught what)])
  | outcome.threw (exception.not_runtime_error what) =>
    (outcome.threw (exception.not_runtime_error what), [])

/-- One iteration of the loop of `worker_loop` (lines 108-121). -/
def worker_loop_iteration (RAND_MAX : Nat) (s : State) (rands : List Int) (now : Int) :
    Option (outcome × State × List Int × List event) :=
  match randomize_time RAND_MAX maximum_time_worker rands with
  | none => none
  | some (wait_time, rands1) =>
    match worker RAND_MAX s rands1 now with
    | none => none
    | some (o, s1, rands2, ev) =>
      let c := catch_runtime_error o
      some (c.1, s1, rands2,
        [event.wcout (message.waiting_in_worker_loop wait_time), event.sleep_for wait_time]
          ++ ev ++ c.2)

/-- The function `worker_loop`, with no other thread touching the slot between
its iterations.  Each element of `checks` is one evaluation of the loop
condition: the value read from `global_is_stopped` and the clock reading for the
iteration that follows.  The loop is cut off (`none`) when `checks` runs
out. -/
def worker_loop (RAND_MAX : Nat) : List (Bool × Int) → State → List Int →
    Option (outcome × State × List Int × List event)
  | [], _, _ => none
  | (stopped, now) :: checks, s, rands =>
    if stopped then some (outcome.returned, s, rands, [])
    else
      match worker_loop_iteration RAND_MAX s rands now with
      | none => none
      | some (outcome.threw e, s1, rands1, ev) => some (outcome.threw e, s1, rands1, ev)
      | some (outcome.returned, s1, rands1, ev) =>
        match worker_loop RAND_MAX checks s1 rands1 with
        | none => none
        | some (o, s2, rands2, ev2) => some (o, s2, rands2, ev ++ ev2)

/-! ## clear_cache_worker (lines 125-150) -/

/-- One iteration of the loop of `clear_cache_worker` (lines 129-147).
`mutex_free` tells whether the mutex is free when `try_to_lock` runs and `now`
is what the clock returns at line 136.  Durations in milliseconds are compared
with clock durations after conversion to clock ticks. -/
def clear_cache_tick (ticks_per_ms : Int) (s : State) (mutex_free : Bool) (now : Int) :
    State × List event :=
  let owns_lock := mutex_free
  let ev := [event.sleep_for clear_cache_interval, event.try_lock owns_lock]
  let release := if owns_lock then [event.unlock] else []
  if owns_lock && s.global_cache.isSome then
    let elapsed_time := now - s.global_cache_last_access
    if elapsed_time > maximum_unused_time * ticks_per_ms then
      ({ s with global_cache := none },
        ev ++ [event.wcout (message.resetting (Int.tdiv elapsed_time ticks_per_ms))] ++ release)
    else (s, ev ++ release)
  else (s, ev ++ release)

/-- The function `clear_cache_worker`, with no other thread touching the slot
between its iterations.  Each element of `checks` is one evaluation of the loop
condition: the value read from `global_is_stopped`, whether the mutex is free
at the `try_to_lock` that follows, and the clock reading.  The loop is cut off
(`none`) when `checks` runs out. -/
def clear_cache_worker (ticks_per_ms : Int) : List (Bool × Bool × Int) → State →
    Option (State × List event)
  | [], _ => none
  | (stopped, mutex_free, now) :: checks, s =>
    if stopped then some (s, [])
    else
      let t := clear_cache_tick ticks_per_ms s mutex_free now
      match clear_cache_worker ticks_per_ms checks t.1 with
      | none => none
      | some (s2, ev2) => some (s2, t.2 ++ ev2)

/-- A sequence of calls of `worker`, one per element of `calls`: the clock reading
for the call and whether the reaper has reset the slot since the previous call.
The result lists, for every call, the slot on entry, how the call ended and the
slot on exit. -/
def worker_attempts (RAND_MAX : Nat) : List (Int × Bool) → State → List Int →
    Option (List (State × outcome × State))
  | [], _, _ => some []
  | (now, evicted) :: calls, s, rands =>
    let s0 : State := if evicted then { s with global_cache := none } else s
    match worker RAND_MAX s0 rands now with
    | none => none
    | some (o, s1, rands1, _) =>
      match worker_attempts RAND_MAX calls s1 rands1 with
      | none => none
      | some h => some ((s0, o, s1) :: h)

/-- The slot when the program starts: no cache, and the time point of the epoch. -/
def initial_state : State := { global_cache := none, global_cache_last_access := 0 }

/-- The values of 1..1000 on which the test of line 92 makes `worker` throw. -/
def failing_values : List Int :=
  ((List.range 1000).map (fun i : Nat => (i : Int) + 1)).filter (fun v => failure_draw v)

/-- The share of the values 1..1000 on which `worker` throws. -/
def failure_share : ℚ := (failing_values.length : ℚ) / 1000

/-- The outputs `r` of `std::rand()` in 0..RAND_MAX for which `randomize_value`,
given `r` alone, returns `v`. -/
def outputs_giving (RAND_MAX : Nat) (upper_limit v : Int) : Finset Nat :=
  (Finset.range (RAND_MAX + 1)).filter
    (fun r => randomize_value RAND_MAX upper_limit [(r : Int)] = some (v, []))

/-! ## The threads interleaved

One step is one statement of one thread.  The steps of the thread of
`worker_loop` follow lines 104-123 and 58-102, those of the thread of
`clear_cache_worker` lines 125-150, and `main` sets the stop flag. -/

/-- The two threads that `main` starts. -/
inductive thread where
  | worker_loop_thread
  | wait_thread
deriving DecidableEq, Repr

/-- Where the thread of `worker_loop` stands: the statement it executes next. -/
inductive worker_pc where
  | loop_test    -- line 106
  | loop_sleep   -- lines 108-112
  | lock         -- line 60, blocks while the mutex is taken
  | swap_out     -- lines 73-74
  | test_cache   -- lines 76-84
  | work         -- lines 86-90
  | draw         -- line 92
  | put_back     -- lines 98-100
  | stamp        -- line 101
  | leave        -- line 102, scoped_cache and guard are destroyed
  | unwind       -- line 94, scoped_cache and guard are destroyed
  | handler      -- lines 118-121
  | stopped
deriving DecidableEq, Repr

/-- Where the thread of `clear_cache_worker` stands. -/
inductive reaper_pc where
  | loop_test    -- line 127
  | sleep        -- line 129
  | try_lock     -- line 132
  | test         -- line 134
  | elapsed      -- lines 136-138
  | reset        -- lines 140-144
  | release      -- line 147, guard is destroyed
  | stopped
deriving DecidableEq, Repr

/-- The globals, and for each thread its position and its locals:
`scoped_cache` of `worker` and whether `guard` of `clear_cache_worker` owns the
mutex. -/
structure Sys where
  global_cache_mutex : Option thread
  global_cache : cache_ptr
  global_cache_last_access : Int
  global_is_stopped : Bool
  wpc : worker_pc
  scoped_cache : cache_ptr
  rpc : reaper_pc
  owns_lock : Bool
deriving DecidableEq, Repr

/-- Which thread moves, with what its statement reads from outside: `v` is the
value of `randomize_value(1000)`, `now` a clock reading, `spurious` whether a
`try_lock` on a free mutex fails all the same (the standard allows it). -/
inductive action where
  | set_stopped
  | worker_step (v : Int) (now : Int)
  | reaper_step (now : Int) (spurious : Bool)
deriving DecidableEq, Repr

/-- The next statement of the thread of `worker_loop`; `none` when the thread
cannot move (it waits for the mutex, or its loop has ended). -/
def worker_step (s : Sys) (v now : Int) : Option Sys :=
  match s.wpc with
  | worker_pc.loop_test =>
    some { s with wpc := if s.global_is_stopped then worker_pc.stopped else worker_pc.loop_sleep }
  | worker_pc.loop_sleep => some { s with wpc := worker_pc.lock }
  | worker_pc.lock =>
    if s.global_cache_mutex = none then
      some { s with global_cache_mutex := some thread.worker_loop_thread, wpc := worker_pc.swap_out }
    else none
  | worker_pc.swap_out =>
    let sw := swap none s.global_cache
    some { s with scoped_cache := sw.1, global_cache := sw.2, wpc := worker_pc.test_cache }
  | worker_pc.test_cache =>
    some { s with
      scoped_cache := if s.scoped_cache.isSome then s.scoped_cache else some (new_cache 1000),
      wpc := worker_pc.work }
  | worker_pc.work => some { s with wpc := worker_pc.draw }
  | worker_pc.draw =>
    some { s with wpc := if failure_draw v then worker_pc.unwind else worker_pc.put_back }
  | worker_pc.put_back =>
    let sw := swap s.global_cache s.scoped_cache
    some { s with global_cache := sw.1, scoped_cache := sw.2, wpc := worker_pc.stamp }
  | worker_pc.stamp => some { s with global_cache_last_access := now, wpc := worker_pc.leave }
  | worker_pc.leave =>
    some { s with scoped_cache := none, global_cache_mutex := none, wpc := worker_pc.loop_test }
  | worker_pc.unwind =>
    some { s with scoped_cache := none, global_cache_mutex := none, wpc := worker_pc.handler }
  | worker_pc.handler => some { s with wpc := worker_pc.loop_test }
  | worker_pc.stopped => none

/-- The next statement of the thread of `clear_cache_worker`; `none` when its
loop has ended. -/
def reaper_step (ticks_per_ms : Int) (s : Sys) (now : Int) (spurious : Bool) : Option Sys :=
  match s.rpc with
  | reaper_pc.loop_test =>
    some { s with rpc := if s.global_is_stopped then reaper_pc.stopped else reaper_pc.sleep }
  | reaper_pc.sleep => some { s with rpc := reaper_pc.try_lock }
  | reaper_pc.try_lock =>
    if s.global_cache_mutex = none ∧ spurious = false then
      some { s with global_cache_mutex := some thread.wait_thread, owns_lock := true,
                    rpc := reaper_pc.test }
    else some { s with owns_lock := false, rpc := reaper_pc.test }
  | reaper_pc.test =>
    some { s with
      rpc := if s.owns_lock && s.global_cache.isSome then reaper_pc.elapsed else reaper_pc.release }
  | reaper_pc.elapsed =>
    some { s with
      rpc := if now - s.global_cache_last_access > maximum_unused_time * ticks_per_ms
        then reaper_pc.reset else reaper_pc.release }
  | reaper_pc.reset => some { s with global_cache := none, rpc := reaper_pc.release }
  | reaper_pc.release =>
    some { s with
      global_cache_mutex := if s.owns_lock then none else s.global_cache_mutex,
      owns_lock := false, rpc := reaper_pc.loop_test }
  | reaper_pc.stopped => none

/-- One step of the program. -/
def step (ticks_per_ms : Int) (s : Sys) : action → Option Sys
  | action.set_stopped => some { s with global_is_stopped := true }
  | action.worker_step v now => worker_step s v now
  | action.reaper_step now spurious => reaper_step ticks_per_ms s now spurious

/-- A sequence of steps; `none` when one of them cannot be taken. -/
def run (ticks_per_ms : Int) : Sys → List action → Option Sys
  | s, [] => some s
  | s, a :: rest =>
    match step ticks_per_ms s a with
    | none => none
    | some s1 => run ticks_per_ms s1 rest

/-- The program when `main` has started both threads. -/
def init : Sys :=
  { global_cache_mutex := none, global_cache := none, global_cache_last_access := 0,
    global_is_stopped := false, wpc := worker_pc.loop_test, scoped_cache := none,
    rpc := reaper_pc.loop_test, owns_lock := false }

/-- The unit of work has executed its swap-out and has not yet released the
mutex. -/
def after_take (s : Sys) : Bool :=
  match s.wpc with
  | worker_pc.test_cache | worker_pc.work | worker_pc.draw | worker_pc.put_back
  | worker_pc.stamp | worker_pc.leave | worker_pc.unwind => true
  | _ => false

/-- The unit of work has executed its swap-out and not its swap-back, and has not
yet released the mutex. -/
def checked_out (s : Sys) : Bool :=
  match s.wpc with
  | worker_pc.test_cache | worker_pc.work | worker_pc.draw | worker_pc.put_back
  | worker_pc.unwind => true
  | _ => false

/-- What holds at each position of the thread of `worker_loop`. -/
def worker_ok (s : Sys) : Prop :=
  match s.wpc with
  | worker_pc.loop_test | worker_pc.loop_sleep | worker_pc.lock | worker_pc.stopped =>
    s.scoped_cache = none ∧ s.global_cache_mutex ≠ some thread.worker_loop_thread
  | worker_pc.handler =>
    s.scoped_cache = none ∧ s.global_cache_mutex ≠ some thread.worker_loop_thread ∧
      s.global_cache = none
  | worker_pc.swap_out =>
    s.scoped_cache = none ∧ s.global_cache_mutex = some thread.worker_loop_thread
  | worker_pc.test_cache | worker_pc.unwind =>
    s.global_cache = none ∧ s.global_cache_mutex = some thread.worker_loop_thread
  | worker_pc.work | worker_pc.draw | worker_pc.put_back =>
    s.global_cache = none ∧ s.scoped_cache.isSome = true ∧
      s.global_cache_mutex = some thread.worker_loop_thread
  | worker_pc.stamp | worker_pc.leave =>
    s.scoped_cache = none ∧ s.global_cache.isSome = true ∧
      s.global_cache_mutex = some thread.worker_loop_thread

/-- What holds at each position of the thread of `clear_cache_worker`. -/
def reaper_ok (s : Sys) : Prop :=
  match s.rpc with
  | reaper_pc.loop_test | reaper_pc.sleep | reaper_pc.try_lock | reaper_pc.stopped =>
    s.global_cache_mutex ≠ some thread.wait_thread
  | reaper_pc.test | reaper_pc.release =>
    (s.owns_lock = true ↔ s.global_cache_mutex = some thread.wait_thread)
  | reaper_pc.elapsed | reaper_pc.reset =>
    s.owns_lock = true ∧ s.global_cache_mutex = some thread.wait_thread


/-- A schedule in which the thread of `worker_loop` runs alone from the start
of the program up to the end of a successful call of `worker`, just before the
mutex is released. -/
def schedule_put_back : List action :=
  [action.worker_step 0 0, action.worker_step 0 0, action.worker_step 0 0,
   action.worker_step 0 0, action.worker_step 0 0, action.worker_step 0 0,
   action.worker_step 1 0, action.worker_step 0 0, action.worker_step 0 5]

/-- The state the program is in after `schedule_put_back`. -/
def state_put_back : Sys :=
  { global_cache_mutex := some thread.worker_loop_thread,
    global_cache := some (new_cache 1000), global_cache_last_access := 5,
    global_is_stopped := false, wpc := worker_pc.leave, scoped_cache := none,
    rpc := reaper_pc.loop_test, owns_lock := false }

/-! ## Facts about randomize_value -/

theorem randomize_value_loop_le (RAND_MAX : Nat) (upper_limit : Int) (rands : List Int) :
    ∀ x v rest, randomize_value_loop RAND_MAX upper_limit x rands = some (v, rest) →
      v ≤ upper_limit := by
  induction rands with
  | nil =>
    intro x v rest h
    unfold randomize_value_loop at h
    split at h
    · exact absurd h (by simp)
    · simp only [Option.some.injEq, Prod.mk.injEq] at h
      omega
  | cons r rs ih =>
    intro x v rest h
    unfold randomize_value_loop at h
    split at h
    · split at h
      · exact absurd h (by simp)
      · exact ih _ _ _ h
    · simp only [Option.some.injEq, Prod.mk.injEq] at h
      omega

theorem divisor_eq (RAND_MAX : Nat) (hmax : RAND_MAX ≤ INT_MAX) (upper_limit : Int)
    (h1 : 1 ≤ upper_limit) :
    divisor RAND_MAX upper_limit = ((RAND_MAX : Int) + 1) / upper_limit := by
  unfold divisor
  unfold INT_MAX at hmax
  have hm : (RAND_MAX + 1) % 2 ^ 32 = RAND_MAX + 1 := Nat.mod_eq_of_lt (by omega)
  rw [hm, Int.tdiv_eq_ediv (by omega) (by omega)]
  push_cast
  rfl

theorem divisor_pos (RAND_MAX : Nat) (hmax : RAND_MAX ≤ INT_MAX) (upper_limit : Int)
    (h1 : 1 ≤ upper_limit) (h2 : upper_limit ≤ (RAND_MAX : Int) + 1) :
    0 < divisor RAND_MAX upper_limit := by
  rw [divisor_eq RAND_MAX hmax upper_limit h1]
  have : (1 : Int) ≤ ((RAND_MAX : Int) + 1) / upper_limit := by
    rw [Int.le_ediv_iff_mul_le (by omega)]
    omega
  omega

theorem candidate_pos (RAND_MAX : Nat) (upper_limit : Int) (r : Int)
    (hd : 0 < divisor RAND_MAX upper_limit) (hr : 0 ≤ r) :
    1 ≤ candidate RAND_MAX upper_limit r := by
  unfold candidate
  have := Int.tdiv_nonneg hr (le_of_lt hd)
  omega

theorem randomize_value_loop_ge (RAND_MAX : Nat) (upper_limit : Int)
    (hd : 0 < divisor RAND_MAX upper_limit) (rands : List Int) :
    (∀ r ∈ rands, 0 ≤ r) →
    ∀ x v rest, 1 ≤ x → randomize_value_loop RAND_MAX upper_limit x rands = some (v, rest) →
      1 ≤ v := by
  induction rands with
  | nil =>
    intro _ x v rest hx h
    unfold randomize_value_loop at h
    split at h
    · exact absurd h (by simp)
    · simp only [Option.some.injEq, Prod.mk.injEq] at h
      omega
  | cons r rs ih =>
    intro hr x v rest hx h
    unfold randomize_value_loop at h
    split at h
    · split at h
      · exact absurd h (by simp)
      · exact ih (fun q hq => hr q (List.mem_cons_of_mem _ hq)) _ _ _
          (candidate_pos RAND_MAX upper_limit r hd (hr r (List.mem_cons_self _ _))) h
    · simp only [Option.some.injEq, Prod.mk.injEq] at h
      omega

theorem randomize_value_loop_returns (RAND_MAX : Nat) (upper_limit : Int)
    (hd : divisor RAND_MAX upper_limit ≠ 0) (rands : List Int) :
    (∃ r ∈ rands, candidate RAND_MAX upper_limit r ≤ upper_limit) →
    ∀ x, (randomize_value_loop RAND_MAX upper_limit x rands).isSome = true := by
  induction rands with
  | nil => intro h; obtain ⟨r, hr, _⟩ := h; cases hr
  | cons r rs ih =>
    intro h x
    unfold randomize_value_loop
    by_cases hx : x > upper_limit
    · rw [if_pos hx, if_neg hd]
      by_cases hc : candidate RAND_MAX upper_limit r ≤ upper_limit
      · cases rs with
        | nil =>
          unfold randomize_value_loop
          rw [if_neg (by omega)]
          rfl
        | cons q qs =>
          unfold randomize_value_loop
          rw [if_neg (by omega)]
          rfl
      · apply ih
        obtain ⟨q, hq, hqc⟩ := h
        rcases List.mem_cons.mp hq with rfl | hq
        · exact absurd hqc hc
        · exact ⟨q, hq, hqc⟩
    · rw [if_neg hx]
      rfl

theorem randomize_value_loop_rejected (RAND_MAX : Nat) (upper_limit : Int) (x y : Int)
    (hx : x > upper_limit) (hy : y > upper_limit) (rands : List Int) :
    randomize_value_loop RAND_MAX upper_limit x rands =
      randomize_value_loop RAND_MAX upper_limit y rands := by
  cases rands with
  | nil =>
    unfold randomize_value_loop
    rw [if_pos hx, if_pos hy]
  | cons r rs =>
    unfold randomize_value_loop
    rw [if_pos hx, if_pos hy]

theorem randomize_value_loop_accepted (RAND_MAX : Nat) (upper_limit : Int) (x : Int)
    (hx : x ≤ upper_limit) (rands : List Int) :
    randomize_value_loop RAND_MAX upper_limit x rands = some (x, rands) := by
  cases rands with
  | nil =>
    unfold randomize_value_loop
    rw [if_neg (by omega)]
  | cons r rs =>
    unfold randomize_value_loop
    rw [if_neg (by omega)]

theorem randomize_value_cons (RAND_MAX : Nat) (upper_limit : Int)
    (hd : divisor RAND_MAX upper_limit ≠ 0) (r : Int) (rest : List Int) :
    randomize_value RAND_MAX upper_limit (r :: rest) =
      if candidate RAND_MAX upper_limit r > upper_limit then
        randomize_value RAND_MAX upper_limit rest
      else some (candidate RAND_MAX upper_limit r, rest) := by
  unfold randomize_value
  conv_lhs => unfold randomize_value_loop
  rw [if_pos (by omega), if_neg hd]
  split
  · rename_i h
    exact randomize_value_loop_rejected RAND_MAX upper_limit _ _ h (by omega) rest
  · rename_i h
    exact randomize_value_loop_accepted RAND_MAX upper_limit _ (by omega) rest

/-- With a single output of `std::rand()`, `randomize_value` returns the
candidate when it is in range and is still looping otherwise. -/
theorem randomize_value_single (RAND_MAX : Nat) (upper_limit : Int)
    (hd : divisor RAND_MAX upper_limit ≠ 0) (r : Int) :
    randomize_value RAND_MAX upper_limit [r] =
      if candidate RAND_MAX upper_limit r > upper_limit then none
      else some (candidate RAND_MAX upper_limit r, []) := by
  unfold randomize_value randomize_value_loop
  rw [if_pos (by omega), if_neg hd]
  unfold randomize_value_loop
  rfl

/-- Each value of 1..upper_limit is returned for exactly `divisor` outputs of
`std::rand()`. -/
theorem outputs_giving_card (RAND_MAX : Nat) (hmax : RAND_MAX ≤ INT_MAX) (upper_limit : Int)
    (h1 : 1 ≤ upper_limit) (h2 : upper_limit ≤ (RAND_MAX : Int) + 1) (v : Int)
    (hv1 : 1 ≤ v) (hv2 : v ≤ upper_limit) :
    ((outputs_giving RAND_MAX upper_limit v).card : Int) = divisor RAND_MAX upper_limit := by
  have hpos := divisor_pos RAND_MAX hmax upper_limit h1 h2
  have hdiv := divisor_eq RAND_MAX hmax upper_limit h1
  obtain ⟨d, hd⟩ : ∃ d : Nat, divisor RAND_MAX upper_limit = (d : Int) :=
    ⟨(divisor RAND_MAX upper_limit).toNat, (Int.toNat_of_nonneg (le_of_lt hpos)).symm⟩
  obtain ⟨k, hk⟩ : ∃ k : Nat, v = (k : Int) + 1 :=
    ⟨(v - 1).toNat, by have := Int.toNat_of_nonneg (show 0 ≤ v - 1 by omega); omega⟩
  have hdpos : 0 < d := by omega
  -- the largest accepted output is below RAND_MAX + 1
  have hfit : ((k : Int) + 1) * (d : Int) ≤ (RAND_MAX : Int) + 1 := by
    have hle : upper_limit * (d : Int) ≤ (RAND_MAX : Int) + 1 := by
      rw [← hd, hdiv, mul_comm]
      exact Int.ediv_mul_le _ (by omega)
    have : ((k : Int) + 1) * (d : Int) ≤ upper_limit * (d : Int) :=
      Int.mul_le_mul_of_nonneg_right (by omega) (by omega)
    omega
  have hfitN : (k + 1) * d ≤ RAND_MAX + 1 := by exact_mod_cast hfit
  have hset : outputs_giving RAND_MAX upper_limit v = Finset.Ico (k * d) ((k + 1) * d) := by
    ext r
    unfold outputs_giving
    rw [Finset.mem_filter, Finset.mem_range, Finset.mem_Ico,
      randomize_value_single RAND_MAX upper_limit (by omega) (r : Int)]
    have hc : candidate RAND_MAX upper_limit (r : Int) = ((r / d : Nat) : Int) + 1 := by
      unfold candidate
      rw [hd, Int.tdiv_eq_ediv (by omega) (by omega)]
      push_cast
      omega
    rw [hc, hk]
    have hq1 : k ≤ r / d ↔ k * d ≤ r := Nat.le_div_iff_mul_le hdpos
    have hq2 : r / d < k + 1 ↔ r < (k + 1) * d := Nat.div_lt_iff_lt_mul hdpos
    constructor
    · rintro ⟨_, h⟩
      split at h
      · exact absurd h (by simp)
      · simp only [Option.some.injEq, Prod.mk.injEq, and_true] at h
        have hq : r / d = k := by omega
        exact ⟨hq1.mp (by omega), hq2.mp (by omega)⟩
    · rintro ⟨ha, hb⟩
      have hq : r / d = k := by
        have := hq1.mpr ha
        have := hq2.mpr hb
        omega
      refine ⟨by omega, ?_⟩
      rw [hq, if_neg (by omega)]
  rw [hset, Nat.card_Ico, hd]
  have : (k + 1) * d - k * d = d := by
    rw [Nat.add_mul, Nat.one_mul]
    omega
  rw [this]

set_option maxRecDepth 100000 in
theorem failing_values_length : failing_values.length = 58 := by decide

/-! ## Facts about worker -/

/-- The events of a call of `worker` up to the simulated work. -/
theorem worker_cases (RAND_MAX : Nat) (s : State) (rands : List Int) (now : Int)
    (o : outcome) (s1 : State) (rest : List Int) (ev : List event)
    (h : worker RAND_MAX s rands now = some (o, s1, rest, ev)) :
    ∃ w rands1 v,
      randomize_time RAND_MAX maximum_idle_time rands = some (w, rands1) ∧
      randomize_value RAND_MAX 1000 rands1 = some (v, rest) ∧
      ((failure_draw v = true ∧ o = outcome.threw worker_error ∧
          s1 = { s with global_cache := none } ∧
          ev = [event.lock,
            event.wcout (if s.global_cache.isSome then message.grabbing else message.created),
            event.wcout (message.waiting_in_worker w), event.sleep_for w, event.unlock]) ∨
       (failure_draw v = false ∧ o = outcome.returned ∧
          s1 = { global_cache := some (s.global_cache.getD (new_cache 1000)),
                 global_cache_last_access := now } ∧
          ev = [event.lock,
            event.wcout (if s.global_cache.isSome then message.grabbing else message.created),
            event.wcout (message.waiting_in_worker w), event.sleep_for w,
            event.wcout message.putting_back, event.unlock])) := by
  unfold worker at h
  simp only [] at h
  split at h
  · exact absurd h (by simp)
  · rename_i w rands1 hw
    split at h
    · exact absurd h (by simp)
    · rename_i v rands2 hv
      refine ⟨w, rands1, v, hw, ?_⟩
      split at h
      · rename_i hf
        simp only [Option.some.injEq, Prod.mk.injEq] at h
        obtain ⟨ho, hs, hr, he⟩ := h
        subst hr
        refine ⟨hv, Or.inl ⟨hf, ho.symm, ?_, ?_⟩⟩
        · rw [← hs]; rfl
        · rw [← he]; rfl
      · rename_i hf
        simp only [Option.some.injEq, Prod.mk.injEq] at h
        obtain ⟨ho, hs, hr, he⟩ := h
        subst hr
        refine ⟨hv, Or.inr ⟨by simpa using hf, ho.symm, ?_, ?_⟩⟩
        · rw [← hs]
          cases hg : s.global_cache <;> simp [swap, hg]
        · rw [← he]; rfl

theorem worker_eq (RAND_MAX : Nat) (s : State) (rands : List Int) (now : Int)
    (w : Int) (rands1 : List Int) (v : Int) (rands2 : List Int)
    (hw : randomize_time RAND_MAX maximum_idle_time rands = some (w, rands1))
    (hv : randomize_value RAND_MAX 1000 rands1 = some (v, rands2)) :
    worker RAND_MAX s rands now =
      if failure_draw v then
        some (outcome.threw worker_error, { s with global_cache := none }, rands2,
          [event.lock,
            event.wcout (if s.global_cache.isSome then message.grabbing else message.created),
            event.wcout (message.waiting_in_worker w), event.sleep_for w, event.unlock])
      else
        some (outcome.returned,
          { global_cache := some (s.global_cache.getD (new_cache 1000)),
            global_cache_last_access := now }, rands2,
          [event.lock,
            event.wcout (if s.global_cache.isSome then message.grabbing else message.created),
            event.wcout (message.waiting_in_worker w), event.sleep_for w,
            event.wcout message.putting_back, event.unlock]) := by
  unfold worker
  simp only [hw, hv]
  cases hg : s.global_cache <;> cases hf : failure_draw v <;> simp [swap]

theorem worker_threw_slot (RAND_MAX : Nat) (s : State) (rands : List Int) (now : Int)
    (e : exception) (s1 : State) (rest : List Int) (ev : List event)
    (h : worker RAND_MAX s rands now = some (outcome.threw e, s1, rest, ev)) :
    s1.global_cache = none ∧
    s1.global_cache_last_access = s.global_cache_last_access ∧
    (s1 = s ↔ s.global_cache = none) := by
  obtain ⟨w, r1, v, _, _, hc⟩ := worker_cases RAND_MAX s rands now _ s1 rest ev h
  rcases hc with ⟨_, _, hs, _⟩ | ⟨_, ho, _, _⟩
  · subst hs
    refine ⟨rfl, rfl, ?_⟩
    constructor
    · intro heq
      rw [← heq]
    · intro hn
      cases s
      simp only [] at hn
      subst hn
      rfl
  · cases ho

/-! ## Facts about clear_cache_tick -/

theorem clear_cache_tick_events (ticks_per_ms : Int) (s : State) (mutex_free : Bool)
    (now : Int) :
    ∃ tail, (clear_cache_tick ticks_per_ms s mutex_free now).2 =
        event.sleep_for clear_cache_interval :: event.try_lock mutex_free :: tail ∧
      ∀ b, event.try_lock b ∉ tail := by
  unfold clear_cache_tick
  simp only []
  split
  · split
    · exact ⟨_, rfl, by cases mutex_free <;> simp⟩
    · exact ⟨_, rfl, by cases mutex_free <;> simp⟩
  · exact ⟨_, rfl, by cases mutex_free <;> simp⟩

theorem clear_cache_tick_empty (ticks_per_ms : Int) (s : State) (mutex_free : Bool)
    (now : Int) (h : s.global_cache = none) :
    (clear_cache_tick ticks_per_ms s mutex_free now).1 = s := by
  unfold clear_cache_tick
  simp [h]

/-! ## Facts about the interleaved threads -/

theorem step_worker_ok_reaper_ok (ticks_per_ms : Int) (s : Sys) (a : action) (s1 : Sys)
    (h : step ticks_per_ms s a = some s1) (hi : worker_ok s ∧ reaper_ok s) :
    worker_ok s1 ∧ reaper_ok s1 := by
  rcases s with ⟨m, g, la, st, wpc, sc, rpc, ol⟩
  obtain ⟨hw, hr⟩ := hi
  cases a with
  | set_stopped =>
    simp only [step, Option.some.injEq] at h
    subst h
    exact ⟨hw, hr⟩
  | worker_step v now =>
    cases wpc <;> cases rpc <;>
      simp only [step, worker_step, swap] at h <;>
      (try generalize new_cache 1000 = nc at h) <;>
      (try split at h) <;>
      (try simp only [Option.some.injEq, reduceCtorEq] at h) <;>
      (try subst h) <;>
      simp only [worker_ok, reaper_ok] at hw hr ⊢ <;>
      simp_all
  | reaper_step now spurious =>
    cases wpc <;> cases rpc <;>
      simp only [step, reaper_step] at h <;>
      (try split at h) <;>
      (try simp only [Option.some.injEq, reduceCtorEq] at h) <;>
      (try subst h) <;>
      simp only [worker_ok, reaper_ok] at hw hr ⊢ <;>
      simp_all

theorem run_worker_ok_reaper_ok (ticks_per_ms : Int) (acts : List action) :
    ∀ s s1, run ticks_per_ms s acts = some s1 → worker_ok s ∧ reaper_ok s →
      worker_ok s1 ∧ reaper_ok s1 := by
  induction acts with
  | nil =>
    intro s s1 h hi
    simp only [run, Option.some.injEq] at h
    subst h
    exact hi
  | cons a rest ih =>
    intro s s1 h hi
    unfold run at h
    split at h
    · exact absurd h (by simp)
    · rename_i s2 hs
      exact ih s2 s1 h (step_worker_ok_reaper_ok ticks_per_ms s a s2 hs hi)

theorem init_worker_ok_reaper_ok : worker_ok init ∧ reaper_ok init := by
  constructor
  · simp [worker_ok, init]
  · simp [reaper_ok, init]

/-- A call of `worker` executed statement by statement, with no step of another
thread in between, ends with the slot that `worker` computes: six steps up to
the handler when the call throws, eight steps when it returns. -/
theorem worker_steps_agree (RAND_MAX : Nat) (ticks_per_ms : Int) (s : Sys) (rands : List Int)
    (now : Int) (o : outcome) (st1 : State) (rest : List Int) (ev : List event)
    (hpc : s.wpc = worker_pc.lock) (hm : s.global_cache_mutex = none)
    (h : worker RAND_MAX
      { global_cache := s.global_cache,
        global_cache_last_access := s.global_cache_last_access } rands now =
      some (o, st1, rest, ev)) :
    ∃ v, run ticks_per_ms s
        (List.replicate (if o = outcome.returned then 8 else 6) (action.worker_step v now)) =
      some { s with
        global_cache := st1.global_cache,
        global_cache_last_access := st1.global_cache_last_access,
        scoped_cache := none,
        wpc := if o = outcome.returned then worker_pc.loop_test else worker_pc.handler } := by
  obtain ⟨w, rands1, v, _, _, hc⟩ := worker_cases RAND_MAX _ rands now o st1 rest ev h
  rcases s with ⟨m, g, la, st, wpc, sc, rpc, ol⟩
  simp only [] at hpc hm
  subst hpc hm
  refine ⟨v, ?_⟩
  rcases hc with ⟨hf, ho, hs, _⟩ | ⟨hf, ho, hs, _⟩
  · subst ho hs
    simp [List.replicate, run, step, worker_step, swap, hf, worker_error]
  · subst ho hs
    cases g <;> simp [List.replicate, run, step, worker_step, swap, hf]

/-- An iteration of `clear_cache_worker` executed statement by statement, with no
step of another thread in between, ends with the slot that `clear_cache_tick`
computes, and with the mutex as it was. -/
theorem reaper_steps_agree (ticks_per_ms : Int) (s : Sys) (now : Int) (spurious : Bool)
    (hpc : s.rpc = reaper_pc.sleep) :
    ∃ n, run ticks_per_ms s (List.replicate n (action.reaper_step now spurious)) =
      some { s with
        global_cache := (clear_cache_tick ticks_per_ms
          { global_cache := s.global_cache,
            global_cache_last_access := s.global_cache_last_access }
          (decide (s.global_cache_mutex = none ∧ spurious = false)) now).1.global_cache,
        owns_lock := false,
        rpc := reaper_pc.loop_test } := by
  rcases s with ⟨m, g, la, st, wpc, sc, rpc, ol⟩
  simp only [] at hpc
  subst hpc
  by_cases hfree : m = none ∧ spurious = false
  · obtain ⟨hm, hsp⟩ := hfree
    subst hm hsp
    cases g with
    | none =>
      exact ⟨4, by simp [List.replicate, run, step, reaper_step, clear_cache_tick]⟩
    | some c =>
      by_cases hel : now - la > maximum_unused_time * ticks_per_ms
      · exact ⟨6, by simp [List.replicate, run, step, reaper_step, clear_cache_tick, hel]⟩
      · exact ⟨5, by simp [List.replicate, run, step, reaper_step, clear_cache_tick, hel]⟩
  · exact ⟨4, by simp [List.replicate, run, step, reaper_step, clear_cache_tick, hfree]⟩

/-! ## The unit of work: C1, C2 -/

/-- C1: when `worker` aborts (the failure draw is divisible by 17 and the
`runtime_error` is thrown), the slot `global_cache` is empty when the call
exits, whatever the slot held on entry and whatever the wait time, and the
error reaches the caller; the borrowed cache is not installed again.  The
first part covers every call that ends by an exception, the second part shows
that the call does end so once both draws have come out, and the third part is
the same fact in the interleaved program: whenever the thread stands at the
handler, having left `worker` by the exception, the slot is empty. -/
theorem worker_abort_leaves_slot_empty (RAND_MAX : Nat) (s : State) (rands : List Int)
    (now : Int) :
    (∀ e s1 rest ev, worker RAND_MAX s rands now = some (outcome.threw e, s1, rest, ev) →
      e = worker_error ∧ s1.global_cache = none ∧
        s1.global_cache_last_access = s.global_cache_last_access) ∧
    (∀ w rands1 v rands2,
      randomize_time RAND_MAX maximum_idle_time rands = some (w, rands1) →
      randomize_value RAND_MAX 1000 rands1 = some (v, rands2) →
      failure_draw v = true →
      ∃ ev, worker RAND_MAX s rands now =
        some (outcome.threw worker_error,
          { global_cache := none, global_cache_last_access := s.global_cache_last_access },
          rands2, ev)) ∧
    (∀ ticks_per_ms acts st, run ticks_per_ms init acts = some st →
      st.wpc = worker_pc.handler →
      st.global_cache = none ∧ st.scoped_cache = none ∧
        st.global_cache_mutex ≠ some thread.worker_loop_thread) := by
  refine ⟨?_, ?_, ?_⟩
  · intro e s1 rest ev h
    obtain ⟨w, rands1, v, _, _, hc⟩ := worker_cases RAND_MAX s rands now _ s1 rest ev h
    rcases hc with ⟨_, ho, hs, _⟩ | ⟨_, ho, _, _⟩
    · cases ho
      subst hs
      exact ⟨rfl, rfl, rfl⟩
    · cases ho
  · intro w rands1 v rands2 hw hv hf
    rw [worker_eq RAND_MAX s rands now w rands1 v rands2 hw hv, if_pos hf]
    exact ⟨_, rfl⟩
  · intro ticks_per_ms acts st h hpc
    obtain ⟨hw, _⟩ := run_worker_ok_reaper_ok ticks_per_ms acts init st h
      init_worker_ok_reaper_ok
    unfold worker_ok at hw
    rw [hpc] at hw
    exact ⟨hw.2.2, hw.1, hw.2.1⟩

theorem worker_abort_leaves_slot_empty_witness :
    ∃ ev, worker 32767 { global_cache := some [entry.mk 3], global_cache_last_access := 5 }
        [0, 512, 9] 77 =
      some (outcome.threw worker_error,
        { global_cache := none, global_cache_last_access := 5 }, [9], ev) :=
  (worker_abort_leaves_slot_empty 32767
    { global_cache := some [entry.mk 3], global_cache_last_access := 5 } [0, 512, 9] 77).2.1
    1 [512, 9] 17 [9] (by decide) (by decide) (by decide)

/-- C2: a call of `worker` that does not abort leaves the slot holding a cache
and `global_cache_last_access` equal to the clock value read at the return.
The cache is the one that was in the slot on entry if there was one, and
otherwise a new cache of exactly 1000 default entries.  The first part covers
every call that returns, the second part shows that the call does return once
both draws have come out and the failure draw is not divisible by 17.  The
last part is the return in the interleaved program: whenever the thread stands
at line 101 the slot holds a cache, and the statement stamps it with the clock
reading and leaves the cache in the slot. -/
theorem worker_success_installs_cache (RAND_MAX : Nat) (s : State) (rands : List Int)
    (now : Int) :
    (∀ s1 rest ev, worker RAND_MAX s rands now = some (outcome.returned, s1, rest, ev) →
      s1.global_cache_last_access = now ∧
      (∀ c, s.global_cache = some c → s1.global_cache = some c) ∧
      (s.global_cache = none → s1.global_cache = some (new_cache 1000))) ∧
    (∀ w rands1 v rands2,
      randomize_time RAND_MAX maximum_idle_time rands = some (w, rands1) →
      randomize_value RAND_MAX 1000 rands1 = some (v, rands2) →
      failure_draw v = false →
      ∃ ev, worker RAND_MAX s rands now =
        some (outcome.returned,
          { global_cache := some (s.global_cache.getD (new_cache 1000)),
            global_cache_last_access := now },
          rands2, ev)) ∧
    (new_cache 1000).length = 1000 ∧ (∀ e ∈ new_cache 1000, e = entry.mk 0) ∧
    (∀ ticks_per_ms acts st, run ticks_per_ms init acts = some st →
      st.wpc = worker_pc.stamp →
      st.global_cache.isSome = true ∧
      ∀ v, worker_step st v now =
        some { st with global_cache_last_access := now, wpc := worker_pc.leave }) := by
  refine ⟨?_, ?_, ?_, ?_, ?_⟩
  · intro s1 rest ev h
    obtain ⟨w, rands1, v, _, _, hc⟩ := worker_cases RAND_MAX s rands now _ s1 rest ev h
    rcases hc with ⟨_, ho, _, _⟩ | ⟨_, _, hs, _⟩
    · cases ho
    · subst hs
      refine ⟨rfl, ?_, ?_⟩
      · intro c hc
        simp [hc]
      · intro hn
        simp [hn]
  · intro w rands1 v rands2 hw hv hf
    rw [worker_eq RAND_MAX s rands now w rands1 v rands2 hw hv, hf]
    exact ⟨_, rfl⟩
  · exact List.length_replicate 1000 (entry.mk 0)
  · intro e he
    exact List.eq_of_mem_replicate he
  · intro ticks_per_ms acts st h hpc
    obtain ⟨hw, _⟩ := run_worker_ok_reaper_ok ticks_per_ms acts init st h
      init_worker_ok_reaper_ok
    unfold worker_ok at hw
    rw [hpc] at hw
    refine ⟨hw.2.1, ?_⟩
    intro v
    unfold worker_step
    rw [hpc]

theorem worker_success_installs_cache_witness :
    ∃ ev, worker 32767 initial_state [0, 0, 9] 77 =
      some (outcome.returned,
        { global_cache := some (initial_state.global_cache.getD (new_cache 1000)),
          global_cache_last_access := 77 }, [9], ev) :=
  (worker_success_installs_cache 32767 initial_state [0, 0, 9] 77).2.1
    1 [0, 9] 1 [9] (by decide) (by decide) (by decide)

/-! ## The reaper threshold: C3 -/

/-- C3: for a reaper tick that acquires the lock while the slot holds a cache,
with idle = now - last_access, the slot is emptied if and only if idle is
strictly greater than `maximum_unused_time` (30ms); otherwise the slot is left
as it was.  Idle for exactly 30ms or for 10ms keeps the cache, idle for 40ms or
for 30ms plus one clock tick empties the slot. -/
theorem clear_cache_tick_threshold (ticks_per_ms : Int) (htick : 0 < ticks_per_ms)
    (c : cache) (last_access now : Int) :
    ((clear_cache_tick ticks_per_ms
        { global_cache := some c, global_cache_last_access := last_access } true now).1.global_cache
        = none ↔ now - last_access > maximum_unused_time * ticks_per_ms) ∧
    (¬ (now - last_access > maximum_unused_time * ticks_per_ms) →
      (clear_cache_tick ticks_per_ms
        { global_cache := some c, global_cache_last_access := last_access } true now).1 =
        { global_cache := some c, global_cache_last_access := last_access }) ∧
    (now - last_access = 30 * ticks_per_ms →
      (clear_cache_tick ticks_per_ms
        { global_cache := some c, global_cache_last_access := last_access } true now).1.global_cache
        = some c) ∧
    (now - last_access = 10 * ticks_per_ms →
      (clear_cache_tick ticks_per_ms
        { global_cache := some c, global_cache_last_access := last_access } true now).1.global_cache
        = some c) ∧
    (now - last_access = 40 * ticks_per_ms →
      (clear_cache_tick ticks_per_ms
        { global_cache := some c, global_cache_last_access := last_access } true now).1.global_cache
        = none) ∧
    (now - last_access = 30 * ticks_per_ms + 1 →
      (clear_cache_tick ticks_per_ms
        { global_cache := some c, global_cache_last_access := last_access } true now).1.global_cache
        = none) := by
  have hev : now - last_access > maximum_unused_time * ticks_per_ms →
      (clear_cache_tick ticks_per_ms
        { global_cache := some c, global_cache_last_access := last_access } true now).1.global_cache
        = none := by
    intro h
    unfold clear_cache_tick
    simp [h]
  have hkeep : ¬ (now - last_access > maximum_unused_time * ticks_per_ms) →
      (clear_cache_tick ticks_per_ms
        { global_cache := some c, global_cache_last_access := last_access } true now).1 =
        { global_cache := some c, global_cache_last_access := last_access } := by
    intro h
    unfold clear_cache_tick
    simp only [Option.isSome_some, Bool.and_self, if_true, if_neg h]
  refine ⟨⟨?_, hev⟩, hkeep, ?_, ?_, ?_, ?_⟩
  · intro h
    by_contra hn
    rw [hkeep hn] at h
    exact absurd h (by simp)
  · intro h
    rw [hkeep (by unfold maximum_unused_time; omega)]
  · intro h
    rw [hkeep (by unfold maximum_unused_time; omega)]
  · intro h
    exact hev (by unfold maximum_unused_time; omega)
  · intro h
    exact hev (by unfold maximum_unused_time; omega)

theorem clear_cache_tick_threshold_witness :
    (clear_cache_tick 1000000
      { global_cache := some [entry.mk 3], global_cache_last_access := 5 } true
      30000005).1.global_cache = some [entry.mk 3] ∧
    (clear_cache_tick 1000000
      { global_cache := some [entry.mk 3], global_cache_last_access := 5 } true
      30000006).1.global_cache = none :=
  ⟨(clear_cache_tick_threshold 1000000 (by decide) [entry.mk 3] 5 30000005).2.2.1 (by decide),
   (clear_cache_tick_threshold 1000000 (by decide) [entry.mk 3] 5 30000006).2.2.2.2.2
     (by decide)⟩

/-! ## Single owner: C4 -/

/-- C4 as stated fails: after the swap-back and the timestamp, and before the
unlock, the unit of work holds the lock after its take step and the slot is
not empty. -/
theorem lock_held_slot_full :
    run 1000000 init schedule_put_back = some state_put_back ∧
    state_put_back.global_cache_mutex = some thread.worker_loop_thread ∧
    after_take state_put_back = true ∧
    state_put_back.global_cache ≠ none := by
  refine ⟨rfl, rfl, rfl, ?_⟩
  simp [state_put_back]

/-- C4 (amended): single owner.  In every reachable state at most one of the slot
`global_cache` and `scoped_cache` of the unit of work in flight holds a cache.
From its swap-out until its swap-back, and while the throw unwinds, the unit of
work holds the lock and the slot is empty; after the swap-back and until the
unlock it still holds the lock, the slot holds the cache and `scoped_cache` is
empty.  The reaper changes the slot only by its reset, which it executes while
it owns the mutex itself and `scoped_cache` is empty, so it never destroys a
cache that is checked out. -/
theorem single_owner (ticks_per_ms : Int) (acts : List action) (s : Sys)
    (h : run ticks_per_ms init acts = some s) :
    (s.global_cache = none ∨ s.scoped_cache = none) ∧
    (after_take s = true → s.global_cache_mutex = some thread.worker_loop_thread) ∧
    (checked_out s = true → s.global_cache = none) ∧
    (after_take s = true → checked_out s = false →
      s.global_cache.isSome = true ∧ s.scoped_cache = none) ∧
    (∀ now spurious s1, reaper_step ticks_per_ms s now spurious = some s1 →
      s1.global_cache ≠ s.global_cache →
      s.rpc = reaper_pc.reset ∧ s1.global_cache = none ∧
        s.global_cache_mutex = some thread.wait_thread ∧ s.owns_lock = true ∧
        s.scoped_cache = none ∧ after_take s = false) := by
  obtain ⟨hw, hr⟩ := run_worker_ok_reaper_ok ticks_per_ms acts init s h
    init_worker_ok_reaper_ok
  rcases s with ⟨m, g, la, st, wpc, sc, rpc, ol⟩
  refine ⟨?_, ?_, ?_, ?_, ?_⟩
  · cases wpc <;> simp only [worker_ok] at hw <;> simp_all
  · cases wpc <;> simp only [worker_ok, after_take] at hw ⊢ <;> simp_all
  · cases wpc <;> simp only [worker_ok, checked_out] at hw ⊢ <;> simp_all
  · cases wpc <;> simp only [worker_ok, checked_out, after_take] at hw ⊢ <;> simp_all
  · intro now spurious s1 hs hne
    cases wpc <;> cases rpc <;>
      simp only [reaper_step] at hs <;>
      (try split at hs) <;>
      (try simp only [Option.some.injEq, reduceCtorEq] at hs) <;>
      (try subst hs) <;>
      simp only [worker_ok, reaper_ok, after_take] at hw hr hne ⊢ <;>
      simp_all

theorem single_owner_witness :
    (state_put_back.global_cache = none ∨ state_put_back.scoped_cache = none) ∧
    (after_take state_put_back = true →
      state_put_back.global_cache_mutex = some thread.worker_loop_thread) ∧
    (checked_out state_put_back = true → state_put_back.global_cache = none) ∧
    (after_take state_put_back = true → checked_out state_put_back = false →
      state_put_back.global_cache.isSome = true ∧ state_put_back.scoped_cache = none) :=
  have h := single_owner 1000000 schedule_put_back state_put_back rfl
  ⟨h.1, h.2.1, h.2.2.1, h.2.2.2.1⟩

/-! ## Failure of a unit of work: C5, C6 -/

/-- C5 as stated fails: from the initial slot, a first call creates the cache
and returns, a second call takes that cache and throws; the slot after the
failed call is empty whereas it held the cache when the call started. -/
theorem failed_attempt_changes_slot :
    worker_attempts 32767 [(10, false), (20, false)] initial_state [0, 0, 0, 512] =
      some [(initial_state, outcome.returned,
              { global_cache := some (new_cache 1000), global_cache_last_access := 10 }),
            ({ global_cache := some (new_cache 1000), global_cache_last_access := 10 },
              outcome.threw worker_error,
              { global_cache := none, global_cache_last_access := 10 })] ∧
    ({ global_cache := none, global_cache_last_access := 10 } : State).global_cache ≠
      ({ global_cache := some (new_cache 1000),
         global_cache_last_access := 10 } : State).global_cache := by
  constructor
  · rfl
  · simp

/-- C5 (amended): in every sequence of calls of `worker`, the slot after a call
that fails is empty, which is what the slot held right after the swap-out of
that call, and `global_cache_last_access` is as on entry.  The slot after
the failed call equals the slot on entry exactly when the slot was empty on
entry. -/
theorem failed_attempt_slot_empty (RAND_MAX : Nat) (calls : List (Int × Bool)) :
    ∀ (s : State) (rands : List Int) (hist : List (State × outcome × State)),
      worker_attempts RAND_MAX calls s rands = some hist →
      ∀ a ∈ hist, ∀ e, a.2.1 = outcome.threw e →
        a.2.2.global_cache = none ∧
        a.2.2.global_cache_last_access = a.1.global_cache_last_access ∧
        (a.2.2 = a.1 ↔ a.1.global_cache = none) := by
  induction calls with
  | nil =>
    intro s rands hist h a ha
    unfold worker_attempts at h
    cases h
    cases ha
  | cons c cs ih =>
    intro s rands hist h a ha e he
    obtain ⟨now, evicted⟩ := c
    unfold worker_attempts at h
    simp only [] at h
    split at h
    · exact absurd h (by simp)
    · rename_i o s1 rands1 ev hwk
      split at h
      · exact absurd h (by simp)
      · rename_i tl htl
        cases h
        rcases List.mem_cons.mp ha with rfl | hmem
        · simp only [] at he ⊢
          subst he
          exact worker_threw_slot RAND_MAX _ rands now e s1 rands1 ev hwk
        · exact ih s1 rands1 tl htl a hmem e he

theorem failed_attempt_slot_empty_witness :
    ({ global_cache := none, global_cache_last_access := 10 } : State).global_cache = none ∧
    (10 : Int) = 10 ∧
    (({ global_cache := none, global_cache_last_access := 10 } : State) =
        { global_cache := some (new_cache 1000), global_cache_last_access := 10 } ↔
      ({ global_cache := some (new_cache 1000),
         global_cache_last_access := 10 } : State).global_cache = none) :=
  failed_attempt_slot_empty 32767 [(10, false), (20, false)] initial_state [0, 0, 0, 512]
    [(initial_state, outcome.returned,
        { global_cache := some (new_cache 1000), global_cache_last_access := 10 }),
     ({ global_cache := some (new_cache 1000), global_cache_last_access := 10 },
        outcome.threw worker_error,
        { global_cache := none, global_cache_last_access := 10 })]
    rfl
    ({ global_cache := some (new_cache 1000), global_cache_last_access := 10 },
        outcome.threw worker_error,
        { global_cache := none, global_cache_last_access := 10 })
    (by simp) worker_error rfl

/-- C6: an exception thrown by `worker` never leaves an iteration of
`worker_loop`.  Whatever the slot and however the call of `worker` ends (it
returns or it throws the `runtime_error`), the iteration ends normally, the
slot after the iteration is the slot `worker` left, a caught error is reported,
and the loop goes on with its next test of the stop flag. -/
theorem worker_loop_iteration_catches (RAND_MAX : Nat) (s : State) (rands : List Int)
    (now : Int) (w : Int) (rands1 : List Int) (o : outcome) (s1 : State)
    (rands2 : List Int) (ev : List event)
    (hw : randomize_time RAND_MAX maximum_time_worker rands = some (w, rands1))
    (h : worker RAND_MAX s rands1 now = some (o, s1, rands2, ev)) :
    (o = outcome.returned ∨ o = outcome.threw worker_error) ∧
    worker_loop_iteration RAND_MAX s rands now =
      some (outcome.returned, s1, rands2,
        [event.wcout (message.waiting_in_worker_loop w), event.sleep_for w] ++ ev ++
          (catch_runtime_error o).2) ∧
    ((catch_runtime_error o).2 =
      if o = outcome.returned then []
      else [event.wcout (message.caught "A randomized exception has occurred.")]) ∧
    (∀ checks, worker_loop RAND_MAX ((false, now) :: checks) s rands =
      (worker_loop RAND_MAX checks s1 rands2).map
        (fun r => (r.1, r.2.1, r.2.2.1,
          ([event.wcout (message.waiting_in_worker_loop w), event.sleep_for w] ++ ev ++
            (catch_runtime_error o).2) ++ r.2.2.2))) := by
  have ho : o = outcome.returned ∨ o = outcome.threw worker_error := by
    obtain ⟨_, _, _, _, _, hc⟩ := worker_cases RAND_MAX s rands1 now o s1 rands2 ev h
    rcases hc with ⟨_, ho, _, _⟩ | ⟨_, ho, _, _⟩
    · exact Or.inr ho
    · exact Or.inl ho
  have hc : (catch_runtime_error o).1 = outcome.returned := by
    rcases ho with rfl | rfl <;> rfl
  have hit : worker_loop_iteration RAND_MAX s rands now =
      some (outcome.returned, s1, rands2,
        [event.wcout (message.waiting_in_worker_loop w), event.sleep_for w] ++ ev ++
          (catch_runtime_error o).2) := by
    unfold worker_loop_iteration
    simp only [hw, h, hc]
  refine ⟨ho, hit, ?_, ?_⟩
  · rcases ho with rfl | rfl
    · rfl
    · rfl
  · intro checks
    conv_lhs => unfold worker_loop
    simp only [hit, Bool.false_eq_true, if_false]
    cases worker_loop RAND_MAX checks s1 rands2 with
    | none => rfl
    | some r => rfl

theorem worker_loop_iteration_catches_witness :
    worker_loop_iteration 32767 { global_cache := some [entry.mk 3], global_cache_last_access := 5 }
        [64, 0, 512, 9] 77 =
      some (outcome.returned, { global_cache := none, global_cache_last_access := 5 }, [9],
        [event.wcout (message.waiting_in_worker_loop 1), event.sleep_for 1] ++
          [event.lock, event.wcout message.grabbing,
            event.wcout (message.waiting_in_worker 1), event.sleep_for 1, event.unlock] ++
          (catch_runtime_error (outcome.threw worker_error)).2) :=
  (worker_loop_iteration_catches 32767
    { global_cache := some [entry.mk 3], global_cache_last_access := 5 } [64, 0, 512, 9] 77
    1 [0, 512, 9] (outcome.threw worker_error)
    { global_cache := none, global_cache_last_access := 5 } [9]
    [event.lock, event.wcout message.grabbing,
      event.wcout (message.waiting_in_worker 1), event.sleep_for 1, event.unlock]
    (by decide) (by decide)).2.1

/-! ## The reaper: C7, C8 -/

/-- C7: eviction is idempotent.  A reaper tick on an empty slot changes nothing,
for every clock value and whether or not it gets the lock; and when a tick at
t1 evicts, a tick at t2 (with t1 <= t2) after it gives the same slot state as
the first tick alone. -/
theorem clear_cache_tick_idempotent (ticks_per_ms : Int) (s : State) :
    (∀ mutex_free now, s.global_cache = none →
      (clear_cache_tick ticks_per_ms s mutex_free now).1 = s) ∧
    (∀ free1 free2 t1 t2, t1 ≤ t2 → s.global_cache ≠ none →
      (clear_cache_tick ticks_per_ms s free1 t1).1.global_cache = none →
      (clear_cache_tick ticks_per_ms (clear_cache_tick ticks_per_ms s free1 t1).1 free2 t2).1 =
        (clear_cache_tick ticks_per_ms s free1 t1).1) := by
  constructor
  · intro mutex_free now h
    exact clear_cache_tick_empty ticks_per_ms s mutex_free now h
  · intro free1 free2 t1 t2 _ _ h
    exact clear_cache_tick_empty ticks_per_ms _ free2 t2 h

theorem clear_cache_tick_idempotent_witness :
    (clear_cache_tick 1000000
      (clear_cache_tick 1000000
        { global_cache := some [entry.mk 3], global_cache_last_access := 5 } true 40000005).1
      true 90000005).1 =
    (clear_cache_tick 1000000
      { global_cache := some [entry.mk 3], global_cache_last_access := 5 } true 40000005).1 :=
  (clear_cache_tick_idempotent 1000000
    { global_cache := some [entry.mk 3], global_cache_last_access := 5 }).2
    true true 40000005 90000005 (by decide) (by decide) (by decide)

/-- C8: under contention the reaper skips.  A tick whose `try_to_lock` fails
sleeps `clear_cache_interval`, makes exactly one acquisition attempt, evicts
nothing and leaves the cache and `global_cache_last_access` unchanged; the loop
then goes to its next test of the stop flag, and whatever it does next starts
with a sleep of `clear_cache_interval` before the next attempt.  A tick changes
the slot only if its acquisition succeeded. -/
theorem clear_cache_tick_contended (ticks_per_ms : Int) (s : State) (now : Int) :
    clear_cache_tick ticks_per_ms s false now =
      (s, [event.sleep_for clear_cache_interval, event.try_lock false]) ∧
    (∀ checks, clear_cache_worker ticks_per_ms ((false, false, now) :: checks) s =
      (clear_cache_worker ticks_per_ms checks s).map
        (fun r => (r.1, [event.sleep_for clear_cache_interval, event.try_lock false] ++ r.2))) ∧
    (∀ checks s1 r, clear_cache_worker ticks_per_ms checks s1 = some r →
      r.2 = [] ∨ ∃ mutex_free tail,
        r.2 = event.sleep_for clear_cache_interval :: event.try_lock mutex_free :: tail) ∧
    (∀ s1 mutex_free now1, ∃ tail,
      (clear_cache_tick ticks_per_ms s1 mutex_free now1).2 =
        event.sleep_for clear_cache_interval :: event.try_lock mutex_free :: tail ∧
      ∀ b, event.try_lock b ∉ tail) ∧
    (∀ s1 mutex_free now1,
      (clear_cache_tick ticks_per_ms s1 mutex_free now1).1 ≠ s1 → mutex_free = true) := by
  have htick : clear_cache_tick ticks_per_ms s false now =
      (s, [event.sleep_for clear_cache_interval, event.try_lock false]) := by
    unfold clear_cache_tick
    simp
  refine ⟨htick, ?_, ?_, clear_cache_tick_events ticks_per_ms, ?_⟩
  · intro checks
    conv_lhs => unfold clear_cache_worker
    simp only [Bool.false_eq_true, if_false, htick]
    cases clear_cache_worker ticks_per_ms checks s with
    | none => rfl
    | some r => rfl
  · intro checks s1 r h
    cases checks with
    | nil =>
      unfold clear_cache_worker at h
      exact absurd h (by simp)
    | cons c cs =>
      obtain ⟨stopped, mutex_free, now1⟩ := c
      unfold clear_cache_worker at h
      split at h
      · simp only [Option.some.injEq] at h
        subst h
        exact Or.inl rfl
      · simp only [] at h
        split at h
        · exact absurd h (by simp)
        · rename_i s2 ev2 _
          simp only [Option.some.injEq] at h
          subst h
          obtain ⟨tail, ht, _⟩ := clear_cache_tick_events ticks_per_ms s1 mutex_free now1
          exact Or.inr ⟨mutex_free, tail ++ ev2, by simp [ht]⟩
  · intro s1 mutex_free now1 h
    cases mutex_free with
    | true => rfl
    | false =>
      exfalso
      apply h
      unfold clear_cache_tick
      simp

theorem clear_cache_tick_contended_witness :
    clear_cache_tick 1000000
        { global_cache := some [entry.mk 3], global_cache_last_access := 5 } false 0 =
      ({ global_cache := some [entry.mk 3], global_cache_last_access := 5 },
        [event.sleep_for clear_cache_interval, event.try_lock false]) ∧
    (([event.sleep_for 60, event.try_lock false, event.sleep_for 60, event.try_lock true,
        event.wcout (message.resetting 40), event.unlock] : List event) = [] ∨
      ∃ mutex_free tail,
        ([event.sleep_for 60, event.try_lock false, event.sleep_for 60, event.try_lock true,
          event.wcout (message.resetting 40), event.unlock] : List event) =
        event.sleep_for clear_cache_interval :: event.try_lock mutex_free :: tail) :=
  have h := clear_cache_tick_contended 1000000
    { global_cache := some [entry.mk 3], global_cache_last_access := 5 } 0
  ⟨h.1,
   h.2.2.1 [(false, false, 0), (false, true, 40000005), (true, true, 0)]
      { global_cache := some [entry.mk 3], global_cache_last_access := 5 }
      ({ global_cache := none, global_cache_last_access := 5 },
        [event.sleep_for 60, event.try_lock false, event.sleep_for 60, event.try_lock true,
          event.wcout (message.resetting 40), event.unlock])
      (by decide)⟩

/-! ## The random draws: C9, C10 -/

/-- C9 as stated fails: the share of the values 1..1000 on which `worker`
throws is not 1/17. -/
theorem failure_share_ne_one_in_17 : failure_share ≠ 1 / 17 := by
  unfold failure_share
  rw [failing_values_length]
  norm_num

/-- C9 (amended): `randomize_value(1000)` returns each value of 1..1000 for the
same number of outputs of `std::rand()` (32 of them for RAND_MAX = 32767,
2147483 for RAND_MAX = 2^31 - 1); the values on which `worker` throws are the
58 multiples of 17 in 1..1000, so their share is 58/1000 = 29/500. -/
theorem failure_share_eq :
    (∀ v : Int, 1 ≤ v → v ≤ 1000 → (outputs_giving 32767 1000 v).card = 32) ∧
    (∀ v : Int, 1 ≤ v → v ≤ 1000 → (outputs_giving 2147483647 1000 v).card = 2147483) ∧
    (∀ v : Int, v ∈ failing_values ↔ (1 ≤ v ∧ v ≤ 1000) ∧ failure_draw v = true) ∧
    failing_values.length = 58 ∧
    failure_share = 29 / 500 := by
  refine ⟨?_, ?_, ?_, failing_values_length, ?_⟩
  · intro v h1 h2
    have h := outputs_giving_card 32767 (by decide) 1000 (by decide) (by decide) v h1 h2
    have hd : divisor 32767 1000 = 32 := by decide
    rw [hd] at h
    exact_mod_cast h
  · intro v h1 h2
    have h := outputs_giving_card 2147483647 (by decide) 1000 (by decide) (by decide) v h1 h2
    have hd : divisor 2147483647 1000 = 2147483 := by decide
    rw [hd] at h
    exact_mod_cast h
  · intro v
    unfold failing_values
    rw [List.mem_filter, List.mem_map]
    constructor
    · rintro ⟨⟨i, hi, rfl⟩, hf⟩
      rw [List.mem_range] at hi
      exact ⟨⟨by omega, by omega⟩, hf⟩
    · rintro ⟨⟨h1, h2⟩, hf⟩
      refine ⟨⟨(v - 1).toNat, ?_, ?_⟩, hf⟩
      · rw [List.mem_range]
        omega
      · have := Int.toNat_of_nonneg (show 0 ≤ v - 1 by omega)
        omega
  · unfold failure_share
    rw [failing_values_length]
    norm_num

theorem failure_share_eq_witness :
    (outputs_giving 32767 1000 17).card = 32 ∧
    (outputs_giving 2147483647 1000 1000).card = 2147483 ∧
    ((17 : Int) ∈ failing_values ↔ ((1 : Int) ≤ 17 ∧ (17 : Int) ≤ 1000) ∧ failure_draw 17 = true) :=
  ⟨failure_share_eq.1 17 (by decide) (by decide),
   failure_share_eq.2.1 1000 (by decide) (by decide),
   failure_share_eq.2.2.1 17⟩

/-- C10: for every `upper_limit` with 1 <= upper_limit <= RAND_MAX + 1 and every
sequence of outputs of `std::rand()` in 0..RAND_MAX, the divisor
`(RAND_MAX + 1) / upper_limit` is not zero and a value that
`randomize_value(upper_limit)` returns is in 1..upper_limit: a candidate
above `upper_limit` is rejected and the next output is drawn, a candidate in
range is returned.  Hence the simulated work of `worker` sleeps at most
`maximum_idle_time` and `worker_loop` sleeps at most `maximum_time_worker`. -/
theorem randomize_value_bounded (RAND_MAX : Nat) (hmax : RAND_MAX ≤ INT_MAX)
    (upper_limit : Int) (h1 : 1 ≤ upper_limit) (h2 : upper_limit ≤ (RAND_MAX : Int) + 1)
    (rands : List Int) (hr : ∀ r ∈ rands, 0 ≤ r ∧ r ≤ (RAND_MAX : Int)) :
    divisor RAND_MAX upper_limit ≠ 0 ∧
    (∀ v rest, randomize_value RAND_MAX upper_limit rands = some (v, rest) →
      1 ≤ v ∧ v ≤ upper_limit) ∧
    (∀ r rest, rands = r :: rest → candidate RAND_MAX upper_limit r > upper_limit →
      randomize_value RAND_MAX upper_limit rands = randomize_value RAND_MAX upper_limit rest) ∧
    (∀ r rest, rands = r :: rest → candidate RAND_MAX upper_limit r ≤ upper_limit →
      randomize_value RAND_MAX upper_limit rands =
        some (candidate RAND_MAX upper_limit r, rest)) ∧
    ((∃ r ∈ rands, candidate RAND_MAX upper_limit r ≤ upper_limit) →
      (randomize_value RAND_MAX upper_limit rands).isSome = true) ∧
    (∀ s now o s1 rest ev, worker RAND_MAX s rands now = some (o, s1, rest, ev) →
      ∃ m w tail, ev = event.lock :: event.wcout m ::
          event.wcout (message.waiting_in_worker w) :: event.sleep_for w :: tail ∧
        w ≤ maximum_idle_time ∧ ∀ ms, event.sleep_for ms ∉ tail) ∧
    (∀ s now o s1 rest ev,
      worker_loop_iteration RAND_MAX s rands now = some (o, s1, rest, ev) →
      ∃ w tail, ev = event.wcout (message.waiting_in_worker_loop w) ::
          event.sleep_for w :: tail ∧
        w ≤ maximum_time_worker ∧
        ∀ ms, event.sleep_for ms ∈ tail → ms ≤ maximum_idle_time) := by
  have hpos := divisor_pos RAND_MAX hmax upper_limit h1 h2
  have hne : divisor RAND_MAX upper_limit ≠ 0 := by omega
  have hworker : ∀ (rs : List Int) s now o s1 rest ev,
      worker RAND_MAX s rs now = some (o, s1, rest, ev) →
      ∃ m w tail, ev = event.lock :: event.wcout m ::
          event.wcout (message.waiting_in_worker w) :: event.sleep_for w :: tail ∧
        w ≤ maximum_idle_time ∧ ∀ ms, event.sleep_for ms ∉ tail := by
    intro rs s now o s1 rest ev h
    obtain ⟨w, rands1, v, hw, _, hc⟩ := worker_cases RAND_MAX s rs now o s1 rest ev h
    have hle : w ≤ maximum_idle_time :=
      randomize_value_loop_le RAND_MAX maximum_idle_time rs _ w rands1 hw
    rcases hc with ⟨_, _, _, he⟩ | ⟨_, _, _, he⟩
    · exact ⟨_, w, _, he, hle, by simp⟩
    · exact ⟨_, w, _, he, hle, by simp⟩
  refine ⟨hne, ?_, ?_, ?_, ?_, hworker rands, ?_⟩
  · intro v rest h
    constructor
    · exact randomize_value_loop_ge RAND_MAX upper_limit hpos rands
        (fun r hrm => (hr r hrm).1) _ v rest (by omega) h
    · exact randomize_value_loop_le RAND_MAX upper_limit rands _ v rest h
  · intro r rest he hc
    rw [he, randomize_value_cons RAND_MAX upper_limit hne, if_pos hc]
  · intro r rest he hc
    rw [he, randomize_value_cons RAND_MAX upper_limit hne, if_neg (by omega)]
  · intro h
    exact randomize_value_loop_returns RAND_MAX upper_limit hne rands h _
  · intro s now o s1 rest ev h
    unfold worker_loop_iteration at h
    split at h
    · exact absurd h (by simp)
    · rename_i w rands1 hw
      split at h
      · exact absurd h (by simp)
      · rename_i o1 s2 rands2 ev1 hwk
        simp only [Option.some.injEq, Prod.mk.injEq] at h
        obtain ⟨_, _, _, he⟩ := h
        obtain ⟨m, w1, tail, hev, hle1, hno⟩ := hworker rands1 s now o1 s2 rands2 ev1 hwk
        refine ⟨w, ev1 ++ (catch_runtime_error o1).2, ?_, ?_, ?_⟩
        · rw [← he]
          simp
        · exact randomize_value_loop_le RAND_MAX maximum_time_worker rands _ w rands1 hw
        · intro ms hms
          rw [List.mem_append] at hms
          rcases hms with hms | hms
          · rw [hev] at hms
            simp only [List.mem_cons, reduceCtorEq, event.sleep_for.injEq, false_or] at hms
            rcases hms with rfl | hms
            · exact hle1
            · exact absurd hms (hno ms)
          · cases o1 with
            | returned => simp [catch_runtime_error] at hms
            | threw e =>
              cases e <;> simp [catch_runtime_error] at hms

theorem randomize_value_bounded_witness :
    divisor 32767 100 ≠ 0 ∧
    (∀ v rest, randomize_value 32767 100 [32767, 5, 7] = some (v, rest) → 1 ≤ v ∧ v ≤ 100) ∧
    candidate 32767 100 32767 = 101 ∧
    randomize_value 32767 100 [32767, 5, 7] = some (1, [7]) :=
  have h := randomize_value_bounded 32767 (by decide) 100 (by decide) (by decide)
    [32767, 5, 7] (by decide)
  ⟨h.1, h.2.1, by decide, by decide⟩

end cache_guard
